import Mathlib

/-!
Shallow embedding of the real-time news aggregator's core pipeline
(backpressure controller, protected news processor, bounded history
buffer, websocket broadcast manager) together with proofs of its
specified properties.

Conventions of the embedding:
* Python floats that only ever hold exact small decimals (thresholds,
  averages of sampled durations) are modelled as rationals `ℚ`; the
  concrete float expressions in the source (`200*1024*1024/1024/1024`,
  `10000 * 0.8`) evaluate exactly to the rationals used here.
* Telemetry reads that may raise are modelled as `Except Unit ℚ`
  (`.error` = the `psutil` read raised, `.ok v` = resident memory in MB).
* Python dicts that act as records are modelled as insertion-ordered
  association lists `List (String × Value)`; setting a key replaces the
  value in place when present and appends the key otherwise, exactly the
  Python dict insertion-order semantics.
* `collections.deque(maxlen := cap)` is modelled as a list kept to its
  last `cap` elements (`dequeAppend`).
-/

namespace RTNews

/-! ### Configuration (src/src/utils/config.py, BACKPRESSURE_CONFIG / NEWS_CONFIG) -/

/-- `BACKPRESSURE_CONFIG['max_memory_usage'] = 200 * 1024 * 1024` (bytes). -/
def max_memory_usage : ℕ := 200 * 1024 * 1024

/-- `BACKPRESSURE_CONFIG['max_queue_size'] = 10000`. -/
def max_queue_size : ℕ := 10000

/-- `BACKPRESSURE_CONFIG['processing_delay_threshold'] = 0.1` seconds. -/
def processing_delay_threshold : ℚ := 1 / 10

/-- `NEWS_CONFIG['buffer_size'] = 1000`; also the literal `deque(maxlen=1000)`
used for `news_buffer`. -/
def news_buffer_capacity : ℕ := 1000

/-! ### Bounded deque (`collections.deque(maxlen := cap)`) -/

/-- The last `n` elements of a list, in order (`l[-n:]` for `n ≥ 1`). -/
def rtakeN (n : ℕ) (l : List α) : List α := l.drop (l.length - n)

/-- Appending to a `deque(maxlen := cap)`: the new element goes to the
right and the leftmost element is discarded when the deque is full. -/
def dequeAppend (cap : ℕ) (xs : List α) (x : α) : List α := rtakeN cap (xs ++ [x])

/-! ### Backpressure controller (src/src/core/backpressure_controller.py) -/

/-- The pause reason strings returned by `should_pause_processing`:
`memoryTooHigh` = "内存使用过高" ("memory usage too high"),
`delayTooHigh` = "处理延迟过高" ("processing delay too high"),
`queueNearlyFull` = "队列接近满载" ("queue nearly full"). -/
inductive PauseReason where
  | memoryTooHigh
  | delayTooHigh
  | queueNearlyFull
deriving DecidableEq, Repr

/-- Mutable state of `BackpressureController` (fields of `__init__`):
`queue_size` stands for `processing_queue.qsize()`, `processing_times`
for the `deque(maxlen=100)` of recent durations (oldest first). -/
structure BPState where
  queue_size : ℕ
  is_paused : Bool
  pause_reason : Option PauseReason
  processing_times : List ℚ
deriving DecidableEq, Repr

/-- `BackpressureController.__init__`: starts RUNNING with no reason. -/
def initBP : BPState :=
  { queue_size := 0, is_paused := false, pause_reason := none, processing_times := [] }

/-- `check_memory_usage`: samples process RSS (the sample, or the raised
exception, is the `mem` argument); on an exception the `except` branch
returns `False`; otherwise compares megabytes against
`max_memory_usage / 1024 / 1024`. -/
def check_memory_usage (mem : Except Unit ℚ) : Bool :=
  match mem with
  | .error _ => false
  | .ok memory_mb => memory_mb > (max_memory_usage : ℚ) / 1024 / 1024

/-- `check_processing_delay`: fewer than 10 samples → `False`; otherwise
compares the window average against the threshold. -/
def check_processing_delay (times : List ℚ) : Bool :=
  if times.length < 10 then false
  else times.sum / (times.length : ℚ) > processing_delay_threshold

/-- `should_pause_processing`: memory, then delay, then queue occupancy
(`qsize() > max_queue_size * 0.8`; the source's float product
`10000 * 0.8` is exactly `8000`, written `(4 : ℚ)/5` here). Returns the
first triggered condition's reason, or `(false, none)` for the source's
`(False, "")`. -/
def should_pause_processing (mem : Except Unit ℚ) (s : BPState) : Bool × Option PauseReason :=
  if check_memory_usage mem then (true, some .memoryTooHigh)
  else if check_processing_delay s.processing_times then (true, some .delayTooHigh)
  else if (s.queue_size : ℚ) > (max_queue_size : ℚ) * (4 / 5) then (true, some .queueNearlyFull)
  else (false, none)

/-- `pause_processing(reason)`: only acts when not already paused. -/
def pause_processing (s : BPState) (reason : PauseReason) : BPState :=
  if s.is_paused then s
  else { s with is_paused := true, pause_reason := some reason }

/-- `resume_processing()`: only acts when paused. -/
def resume_processing (s : BPState) : BPState :=
  if s.is_paused then { s with is_paused := false, pause_reason := none } else s

/-- One observation of the environment during a `wait_for_resume` poll
tick: the memory sample of this tick and the values other tasks have
left in the queue and the rolling window. -/
structure Telemetry where
  mem : Except Unit ℚ
  queue_size : ℕ
  times : List ℚ

/-- The controller state as seen at a poll tick: the concurrently
mutated fields are refreshed from the tick's telemetry. -/
def tickView (s : BPState) (t : Telemetry) : BPState :=
  { s with queue_size := t.queue_size, processing_times := t.times }

/-- `wait_for_resume()`: `while is_paused`, sleep one tick (consuming one
`Telemetry` observation), re-evaluate `should_pause_processing`, and on a
clear check call `resume_processing` and break. `none` models the loop
still running when the observation trace is exhausted. -/
def wait_for_resume (env : List Telemetry) (s : BPState) : Option BPState :=
  match env with
  | [] => if s.is_paused then none else some s
  | t :: rest =>
      if s.is_paused then
        let s' := tickView s t
        if (should_pause_processing t.mem s').1 then wait_for_resume rest s'
        else some (resume_processing s')
      else some s

/-- The state `wait_for_resume` leaves the controller in, including the
state current inside a loop whose observation trace runs out (then the
last tick's view, with pause status and reason untouched). -/
def wait_loop_state (env : List Telemetry) (s : BPState) : BPState :=
  match env with
  | [] => s
  | t :: rest =>
      if s.is_paused then
        let s' := tickView s t
        if (should_pause_processing t.mem s').1 then wait_loop_state rest s'
        else resume_processing s'
      else s

/-- The operations the spec's state-machine invariant ranges over. -/
inductive BPOp where
  | pause (r : PauseReason)
  | resume
  | wait (env : List Telemetry)

/-- Apply one controller operation. -/
def applyBPOp (s : BPState) : BPOp → BPState
  | .pause r => pause_processing s r
  | .resume => resume_processing s
  | .wait env => wait_loop_state env s

/-! ### Item dictionaries (Python dicts with insertion order) -/

/-- A dict value of a news item: a string or an integer. (The stamped
fields use exactly these two shapes; the payload domain is restricted to
them.) -/
inductive Value where
  | str (s : String)
  | num (n : ℤ)
deriving DecidableEq, Repr

/-- A raw or processed news item: an insertion-ordered dict. -/
abbrev Item := List (String × Value)

/-- `d[k]` / `k in d`: first (unique) binding of the key. -/
def dictGet (item : Item) (k : String) : Option Value :=
  (item.find? (fun kv => kv.1 = k)).map (·.2)

/-- `d[k] = v`: replace in place when the key is present, else append
(Python dict insertion-order semantics). -/
def dictSet (item : Item) (k : String) (v : Value) : Item :=
  match item with
  | [] => [(k, v)]
  | (k', v') :: rest => if k' = k then (k, v) :: rest else (k', v') :: dictSet rest k v

/-- Python falsiness of a dict value (`not news_item[field]`). -/
def falsy : Value → Bool
  | .str s => s = ""
  | .num n => n = 0

/-- `field not in news_item or not news_item[field]`. -/
def missingOrFalsy (item : Item) (f : String) : Bool :=
  match dictGet item f with
  | none => true
  | some v => falsy v

/-- `json.dumps` of a single value (default ASCII-safe rendering of the
modelled value domain). -/
def dumpValue : Value → String
  | .str s => "\"" ++ s ++ "\""
  | .num n => toString n

/-- `json.dumps(news_item)` with the default separators `", "` and
`": "`: renders the dict in insertion order. -/
def jsonDumps (item : Item) : String :=
  "\x7b" ++ String.intercalate ", "
      (item.map (fun kv => "\"" ++ kv.1 ++ "\": " ++ dumpValue kv.2)) ++ "\x7d"

/-! ### Protected news processor (src/src/core/protected_news_processor.py) -/

/-- `required_fields = ['title', 'source', 'category', 'company']`. -/
def required_fields : List String := ["title", "source", "category", "company"]

/-- Mutable state of `ProtectedNewsProcessor` (fields of `__init__`);
`categories_count` is the insertion-ordered category→count dict,
`processing_times` the `deque(maxlen=100)`. -/
structure ProcessorState where
  processed_count : ℕ
  categories_count : List (Value × ℕ)
  processing_times : List ℚ
  rejected_count : ℕ
deriving DecidableEq, Repr

/-- `ProtectedNewsProcessor.__init__`. -/
def initProcessor : ProcessorState :=
  { processed_count := 0, categories_count := [], processing_times := [], rejected_count := 0 }

/-- `self.categories_count[category] = self.categories_count.get(category, 0) + 1`. -/
def bumpCategory : List (Value × ℕ) → Value → List (Value × ℕ)
  | [], c => [(c, 1)]
  | (k, n) :: rest, c => if k = c then (k, n + 1) :: rest else (k, n) :: bumpCategory rest c

/-- `process_news(news_item)`. Non-state inputs of the run are passed in:
`now` is `datetime.now().isoformat()` and `dt` the measured
`time.time() - start_time`. Returns the updated processor state and
`some stamped_item` on success, `none` for the Python `None`. -/
def process_news (s : ProcessorState) (news_item : Item) (now : String) (dt : ℚ) :
    ProcessorState × Option Item :=
  if required_fields.any (fun f => missingOrFalsy news_item f) then
    ({ s with rejected_count := s.rejected_count + 1 }, none)
  else if (jsonDumps news_item).length > 100 * 1024 then
    ({ s with rejected_count := s.rejected_count + 1 }, none)
  else
    let processed_count := s.processed_count + 1
    let category := (dictGet news_item "category").getD (.str "Unknown")
    let stamped :=
      dictSet (dictSet news_item "processed_at" (.str now)) "processing_id"
        (.num processed_count)
    ({ processed_count := processed_count,
       categories_count := bumpCategory s.categories_count category,
       processing_times := dequeAppend 100 s.processing_times dt,
       rejected_count := s.rejected_count }, some stamped)

/-- One raw item together with the clock readings of its processing. -/
structure RawInput where
  item : Item
  now : String
  dt : ℚ

/-- Feed a sequence of raw items through one processor; returns the
final state and the accepted (stamped) items in acceptance order. -/
def runProcessor (s : ProcessorState) : List RawInput → ProcessorState × List Item
  | [] => (s, [])
  | r :: rest =>
      let step := process_news s r.item r.now r.dt
      let tail := runProcessor step.1 rest
      match step.2 with
      | some p => (tail.1, p :: tail.2)
      | none => tail

/-- One iteration of the ingestion loop body
(`generate_protected_news_stream`): process the item and, under
`if processed_news:` (Python truthiness: not `None` and non-empty),
append it to `news_buffer` and broadcast it (`broadcast_log` collects
the items handed to `broadcast_news`). -/
def ingest_step (s : ProcessorState) (buffer : List Item) (broadcast_log : List Item)
    (raw : Item) (now : String) (dt : ℚ) : ProcessorState × List Item × List Item :=
  let step := process_news s raw now dt
  match step.2 with
  | some p =>
      if p.isEmpty then (step.1, buffer, broadcast_log)
      else (step.1, dequeAppend news_buffer_capacity buffer p, broadcast_log ++ [p])
  | none => (step.1, buffer, broadcast_log)

/-! ### History buffer snapshot (src/src/api/routes.py, `get_latest_news`) -/

/-- `list(news_buffer)[-k:]` for `k ≥ 1`: the most recent `k` items. -/
def snapshot (k : ℕ) (buffer : List Item) : List Item := rtakeN k buffer

/-- The `/api/news` route's `list(news_buffer)[-10:]`. -/
def get_latest_news (buffer : List Item) : List Item := snapshot 10 buffer

/-! ### WebSocket manager (src/src/core/websocket_manager.py) -/

/-- State of `WebSocketManager`: the registry list (subscriber handles
modelled as naturals, in registration order) and the cumulative
broadcast counters. -/
structure WSManager where
  active_connections : List ℕ
  total_sent : ℕ
  total_errors : ℕ
deriving DecidableEq, Repr

/-- `WebSocketManager.__init__`. -/
def initWS : WSManager := { active_connections := [], total_sent := 0, total_errors := 0 }

/-- `connect(websocket)`: accepts and unconditionally appends the handle
to `active_connections`. -/
def connect (m : WSManager) (ws : ℕ) : WSManager :=
  { m with active_connections := m.active_connections ++ [ws] }

/-- `disconnect(websocket)`: removes the handle if present (first
occurrence, as `list.remove`). -/
def disconnect (m : WSManager) (ws : ℕ) : WSManager :=
  { m with active_connections :=
      if ws ∈ m.active_connections then m.active_connections.erase ws
      else m.active_connections }

/-- `broadcast_news(news_item, backpressure_controller)`: one
`send_safe` attempt per registered connection (`fails h = true` models
`send_safe` returning the caught exception for handle `h`), failures
counted, counters updated, and the broadcast duration `dt` appended to
the controller's rolling window. Returns the updated manager, the
per-connection outcome list, and the updated controller state. -/
def broadcast_news (m : WSManager) (bp : BPState) (fails : ℕ → Bool) (dt : ℚ) :
    WSManager × List Bool × BPState :=
  if m.active_connections.isEmpty then (m, [], bp)
  else
    let results := m.active_connections.map fails
    let errors := results.countP (fun r => r)
    let success := results.length - errors
    ({ m with total_sent := m.total_sent + success,
              total_errors := m.total_errors + errors },
     results,
     { bp with processing_times := dequeAppend 100 bp.processing_times dt })

/-! ### Helper lemmas: bounded deque -/

theorem length_rtakeN (n : ℕ) (l : List α) : (rtakeN n l).length = min n l.length := by
  simp [rtakeN]
  omega

theorem rtakeN_eq_self (n : ℕ) (l : List α) (h : l.length ≤ n) : rtakeN n l = l := by
  simp [rtakeN, Nat.sub_eq_zero_of_le h]

theorem rtakeN_suffix (n : ℕ) (l : List α) : rtakeN n l <:+ l :=
  List.drop_suffix _ _

theorem rtakeN_rtakeN (m n : ℕ) (l : List α) :
    rtakeN m (rtakeN n l) = rtakeN (min m n) l := by
  unfold rtakeN
  rw [List.drop_drop, List.length_drop]
  congr 1
  omega

theorem rtakeN_concat (n : ℕ) (hn : 1 ≤ n) (l : List α) (x : α) :
    rtakeN n (l ++ [x]) = rtakeN (n - 1) l ++ [x] := by
  unfold rtakeN
  rw [List.length_append, List.drop_append_of_le_length (by simp; omega)]
  congr 2
  simp
  omega

theorem foldl_dequeAppend (n : ℕ) (hn : 1 ≤ n) (items : List α) :
    items.foldl (dequeAppend n) [] = rtakeN n items := by
  induction items using List.reverseRecOn with
  | nil => simp [rtakeN]
  | append_singleton l x ih =>
      rw [List.foldl_append, List.foldl_cons, List.foldl_nil, ih]
      show rtakeN n (rtakeN n l ++ [x]) = rtakeN n (l ++ [x])
      rw [rtakeN_concat n hn, rtakeN_concat n hn, rtakeN_rtakeN]
      congr 2
      omega

/-! ### Helper lemmas: dicts -/

theorem dictGet_cons (k' : String) (v' : Value) (rest : Item) (k : String) :
    dictGet ((k', v') :: rest) k = if k' = k then some v' else dictGet rest k := by
  by_cases h : k' = k
  · simp [dictGet, List.find?_cons_of_pos, h]
  · simp [dictGet, h, List.find?_cons_of_neg]

theorem dictGet_dictSet_self (d : Item) (k : String) (v : Value) :
    dictGet (dictSet d k v) k = some v := by
  induction d with
  | nil => simp [dictSet, dictGet_cons, dictGet]
  | cons kv rest ih =>
      obtain ⟨k', v'⟩ := kv
      by_cases h : k' = k
      · simp [dictSet, h, dictGet_cons]
      · simp [dictSet, h, dictGet_cons, ih]

theorem dictGet_dictSet_ne (d : Item) (k k' : String) (v : Value) (h : k' ≠ k) :
    dictGet (dictSet d k v) k' = dictGet d k' := by
  induction d with
  | nil => simp [dictSet, dictGet_cons, dictGet, Ne.symm h]
  | cons kv rest ih =>
      obtain ⟨k₀, v₀⟩ := kv
      by_cases h₀ : k₀ = k
      · subst h₀
        simp [dictSet, dictGet_cons, Ne.symm h]
      · simp [dictSet, h₀, dictGet_cons, ih]

/-! ### Helper lemmas: backpressure conditions -/

theorem check_memory_usage_iff (mem : Except Unit ℚ) :
    check_memory_usage mem = true ↔ ∃ v, mem = Except.ok v ∧ 200 < v := by
  cases mem with
  | error e => simp [check_memory_usage]
  | ok v =>
      simp [check_memory_usage, max_memory_usage]
      norm_num

theorem check_processing_delay_iff (ts : List ℚ) :
    check_processing_delay ts = true ↔
      10 ≤ ts.length ∧ (1 : ℚ) / 10 < ts.sum / (ts.length : ℚ) := by
  by_cases h : ts.length < 10
  · simp [check_processing_delay, h]
  · simp [check_processing_delay, h, processing_delay_threshold, Nat.not_lt.mp h]

theorem queue_cond_iff (q : ℕ) :
    ((q : ℚ) > (max_queue_size : ℚ) * (4 / 5)) ↔ 8000 < q := by
  have h8 : (max_queue_size : ℚ) * (4 / 5) = 8000 := by norm_num [max_queue_size]
  rw [h8]
  norm_cast

theorem check_memory_usage_ok (v : ℚ) :
    check_memory_usage (Except.ok v) = decide (200 < v) := by
  have h200 : (max_memory_usage : ℚ) / 1024 / 1024 = 200 := by
    norm_num [max_memory_usage]
  rw [check_memory_usage, h200]

theorem tickView_is_paused (s : BPState) (t : Telemetry) :
    (tickView s t).is_paused = s.is_paused := rfl

theorem tickView_pause_reason (s : BPState) (t : Telemetry) :
    (tickView s t).pause_reason = s.pause_reason := rfl

theorem tickView_tickView (s : BPState) (t t' : Telemetry) :
    tickView (tickView s t) t' = tickView s t' := rfl

/-! ### Claim theorems: backpressure controller -/

/-- C1: `should_pause_processing` evaluates the three pause conditions in
the fixed priority order memory, processing delay, admission queue, and
returns `(true, reason)` for the first condition that holds — the
memory reason iff the sampled memory exceeds the 200 MiB ceiling, else
the delay reason iff the rolling window holds at least 10 samples whose
average exceeds the 100 ms (= 1/10 s) threshold, else the queue reason
iff queue occupancy exceeds 80% of capacity 10,000 (i.e. 8000) — and
`(false, none)` when none of the three holds. -/
theorem should_pause_priority_order (mem : Except Unit ℚ) (s : BPState) :
    (should_pause_processing mem s = (true, some PauseReason.memoryTooHigh) ↔
      (∃ v, mem = Except.ok v ∧ 200 < v)) ∧
    (should_pause_processing mem s = (true, some PauseReason.delayTooHigh) ↔
      (¬ (∃ v, mem = Except.ok v ∧ 200 < v) ∧
        10 ≤ s.processing_times.length ∧
        (1 : ℚ) / 10 < s.processing_times.sum / (s.processing_times.length : ℚ))) ∧
    (should_pause_processing mem s = (true, some PauseReason.queueNearlyFull) ↔
      (¬ (∃ v, mem = Except.ok v ∧ 200 < v) ∧
        ¬ (10 ≤ s.processing_times.length ∧
          (1 : ℚ) / 10 < s.processing_times.sum / (s.processing_times.length : ℚ)) ∧
        8000 < s.queue_size)) ∧
    (should_pause_processing mem s = (false, none) ↔
      (¬ (∃ v, mem = Except.ok v ∧ 200 < v) ∧
        ¬ (10 ≤ s.processing_times.length ∧
          (1 : ℚ) / 10 < s.processing_times.sum / (s.processing_times.length : ℚ)) ∧
        ¬ (8000 < s.queue_size))) := by
  rw [← check_memory_usage_iff mem, ← check_processing_delay_iff s.processing_times,
    ← queue_cond_iff s.queue_size]
  unfold should_pause_processing
  split_ifs with h1 h2 h3 <;> simp_all

/-- C9: a telemetry read failure while sampling process memory makes
`check_memory_usage` return the non-triggering `false` (the exception is
caught, never propagated — the embedding is total), and
`should_pause_processing` then still evaluates the remaining two
conditions exactly as usual. -/
theorem telemetry_failure_not_triggering (s : BPState) (e : Unit) :
    check_memory_usage (Except.error e) = false ∧
    should_pause_processing (Except.error e) s =
      (if check_processing_delay s.processing_times then
        (true, some PauseReason.delayTooHigh)
      else if (s.queue_size : ℚ) > (max_queue_size : ℚ) * (4 / 5) then
        (true, some PauseReason.queueNearlyFull)
      else (false, none)) := by
  exact ⟨rfl, by simp [should_pause_processing, check_memory_usage]⟩

/-- C2: when `wait_for_resume` is entered in the PAUSED state and
returns, it does so only after a re-check at which
`should_pause_processing` reported no condition holding, the returned
state is RUNNING with no pause reason, and the PAUSED→RUNNING transition
is exactly `resume_processing` applied at that clear re-check (never
while a condition still holds). -/
theorem wait_for_resume_resumes (env : List Telemetry) (s s' : BPState)
    (hp : s.is_paused = true) (h : wait_for_resume env s = some s') :
    s'.is_paused = false ∧ s'.pause_reason = none ∧
    ∃ t ∈ env, (should_pause_processing t.mem (tickView s t)).1 = false ∧
      s' = resume_processing (tickView s t) := by
  induction env generalizing s with
  | nil => simp [wait_for_resume, hp] at h
  | cons t rest ih =>
      rw [wait_for_resume] at h
      simp only [hp, if_true] at h
      by_cases hc : (should_pause_processing t.mem (tickView s t)).1 = true
      · rw [if_pos hc] at h
        obtain ⟨h1, h2, t', ht', hcond, heq⟩ := ih (tickView s t) hp h
        rw [tickView_tickView] at hcond heq
        exact ⟨h1, h2, t', List.mem_cons_of_mem _ ht', hcond, heq⟩
      · rw [if_neg hc] at h
        have hs' : s' = resume_processing (tickView s t) := (Option.some_injective _ h).symm
        have hres : resume_processing (tickView s t) =
            { tickView s t with is_paused := false, pause_reason := none } := by
          unfold resume_processing
          rw [if_pos (by rw [tickView_is_paused, hp])]
        refine ⟨?_, ?_, t, List.mem_cons_self t rest, Bool.not_eq_true _ ▸ hc, hs'⟩
        · rw [hs', hres]
        · rw [hs', hres]

/-- Witness for `wait_for_resume_resumes`: a paused controller and a
single clear telemetry tick. -/
theorem wait_for_resume_resumes_witness :
    (⟨0, false, none, []⟩ : BPState).is_paused = false ∧
    (⟨0, false, none, []⟩ : BPState).pause_reason = none ∧
    ∃ t ∈ [(⟨Except.ok 50, 0, []⟩ : Telemetry)],
      (should_pause_processing t.mem
        (tickView ⟨0, true, some PauseReason.memoryTooHigh, []⟩ t)).1 = false ∧
      (⟨0, false, none, []⟩ : BPState) =
        resume_processing (tickView ⟨0, true, some PauseReason.memoryTooHigh, []⟩ t) :=
  wait_for_resume_resumes [⟨Except.ok 50, 0, []⟩]
    ⟨0, true, some PauseReason.memoryTooHigh, []⟩ ⟨0, false, none, []⟩ rfl
    (by simp [wait_for_resume, tickView, should_pause_processing, check_memory_usage_ok,
      check_processing_delay, resume_processing,
      show ¬ (200 : ℚ) < 50 by norm_num,
      show ¬ (max_queue_size : ℚ) * (4 / 5) < 0 by norm_num [max_queue_size]])

/-! Invariant preservation lemmas for C3. -/

theorem bpInv_pause (s : BPState) (r : PauseReason)
    (h : s.pause_reason.isSome = s.is_paused) :
    (pause_processing s r).pause_reason.isSome = (pause_processing s r).is_paused := by
  unfold pause_processing
  split <;> simp_all

theorem bpInv_resume (s : BPState) (h : s.pause_reason.isSome = s.is_paused) :
    (resume_processing s).pause_reason.isSome = (resume_processing s).is_paused := by
  unfold resume_processing
  split <;> simp_all

theorem bpInv_wait (env : List Telemetry) (s : BPState)
    (h : s.pause_reason.isSome = s.is_paused) :
    (wait_loop_state env s).pause_reason.isSome = (wait_loop_state env s).is_paused := by
  induction env generalizing s with
  | nil => simpa [wait_loop_state] using h
  | cons t rest ih =>
      rw [wait_loop_state]
      by_cases hp : s.is_paused = true
      · simp only [hp, if_true]
        by_cases hc : (should_pause_processing t.mem (tickView s t)).1 = true
        · rw [if_pos hc]
          exact ih (tickView s t) h
        · rw [if_neg hc]
          exact bpInv_resume (tickView s t) h
      · simp only [Bool.not_eq_true] at hp
        simpa [hp] using h

theorem bpInv_foldl (ops : List BPOp) (s : BPState)
    (h : s.pause_reason.isSome = s.is_paused) :
    ((ops.foldl applyBPOp s).pause_reason.isSome = (ops.foldl applyBPOp s).is_paused) := by
  induction ops generalizing s with
  | nil => simpa using h
  | cons op rest ih =>
      rw [List.foldl_cons]
      apply ih
      cases op with
      | pause r => exact bpInv_pause s r h
      | resume => exact bpInv_resume s h
      | wait env => exact bpInv_wait env s h

/-- C3: in every state of the `BackpressureController` reachable from the
initial state (RUNNING, no reason) by any sequence of
`pause_processing`, `resume_processing` and `wait_for_resume`
operations, `pause_reason` is non-null iff the controller is paused. -/
theorem pause_reason_iff_paused (ops : List BPOp) :
    (ops.foldl applyBPOp initBP).pause_reason ≠ none ↔
      (ops.foldl applyBPOp initBP).is_paused = true := by
  rw [Option.ne_none_iff_isSome, bpInv_foldl ops initBP rfl]

/-! ### Helper lemmas: processor -/

theorem process_news_reject_eq (s : ProcessorState) (item : Item) (now : String) (dt : ℚ)
    (h : required_fields.any (fun f => missingOrFalsy item f) = true ∨
      100 * 1024 < (jsonDumps item).length) :
    process_news s item now dt = ({ s with rejected_count := s.rejected_count + 1 }, none) := by
  unfold process_news
  rcases h with h | h
  · rw [if_pos h]
  · by_cases h1 : required_fields.any (fun f => missingOrFalsy item f) = true
    · rw [if_pos h1]
    · rw [if_neg h1, if_pos h]

theorem process_news_none_state (s : ProcessorState) (item : Item) (now : String) (dt : ℚ)
    (s1 : ProcessorState) (h : process_news s item now dt = (s1, none)) :
    s1 = { s with rejected_count := s.rejected_count + 1 } := by
  unfold process_news at h
  split_ifs at h <;> simp_all [Prod.mk.injEq]

theorem process_news_success_eq (s : ProcessorState) (item : Item) (now : String) (dt : ℚ)
    (s' : ProcessorState) (p : Item) (h : process_news s item now dt = (s', some p)) :
    s' = { processed_count := s.processed_count + 1,
           categories_count :=
             bumpCategory s.categories_count
               ((dictGet item "category").getD (Value.str "Unknown")),
           processing_times := dequeAppend 100 s.processing_times dt,
           rejected_count := s.rejected_count } ∧
    p = dictSet (dictSet item "processed_at" (Value.str now)) "processing_id"
          (Value.num ((s.processed_count + 1 : ℕ) : ℤ)) := by
  unfold process_news at h
  split_ifs at h
  · simp at h
  · simp at h
  · simp only [Prod.mk.injEq, Option.some.injEq] at h
    exact ⟨h.1.symm, h.2.symm⟩

theorem stamped_fields (s : ProcessorState) (item : Item) (now : String) (dt : ℚ)
    (s' : ProcessorState) (p : Item) (h : process_news s item now dt = (s', some p)) :
    dictGet p "processing_id" = some (Value.num ((s.processed_count + 1 : ℕ) : ℤ)) ∧
    dictGet p "processed_at" = some (Value.str now) := by
  obtain ⟨-, hp⟩ := process_news_success_eq s item now dt s' p h
  subst hp
  refine ⟨dictGet_dictSet_self _ _ _, ?_⟩
  rw [dictGet_dictSet_ne _ _ _ _ (by decide)]
  exact dictGet_dictSet_self _ _ _

theorem runProcessor_ids (inputs : List RawInput) : ∀ s : ProcessorState,
    (runProcessor s inputs).2.map (fun q => dictGet q "processing_id") =
      (List.range' (s.processed_count + 1) (runProcessor s inputs).2.length).map
        (fun n : ℕ => some (Value.num n)) := by
  induction inputs with
  | nil => intro s; simp [runProcessor]
  | cons r rest ih =>
      intro s
      rcases hstep : process_news s r.item r.now r.dt with ⟨s1, out⟩
      cases out with
      | none =>
          have hc : s1.processed_count = s.processed_count := by
            rw [process_news_none_state s r.item r.now r.dt s1 hstep]
          simp only [runProcessor, hstep]
          rw [ih s1, hc]
      | some p =>
          obtain ⟨hs1, -⟩ := process_news_success_eq s r.item r.now r.dt s1 p hstep
          obtain ⟨hid, -⟩ := stamped_fields s r.item r.now r.dt s1 p hstep
          simp only [runProcessor, hstep, List.length_cons, List.map_cons]
          rw [List.range'_succ, List.map_cons, hid, ih s1, hs1]

/-! ### Claim theorems: processor -/

/-- C4: a raw item missing one of the required fields (or carrying a
Python-falsy value for it), or whose serialized size exceeds 100 KiB, is
rejected: `process_news` returns `none`, increments the rejection
counter by exactly one, leaves the accepted count, the category
distribution and the rolling processing-time window unchanged, and the
ingestion loop body performs no buffer append and no broadcast for the
item. -/
theorem rejected_item_no_side_effects (s : ProcessorState)
    (buffer broadcast_log : List Item) (raw : Item) (now : String) (dt : ℚ)
    (h : required_fields.any (fun f => missingOrFalsy raw f) = true ∨
      100 * 1024 < (jsonDumps raw).length) :
    (process_news s raw now dt).2 = none ∧
    (process_news s raw now dt).1.rejected_count = s.rejected_count + 1 ∧
    (process_news s raw now dt).1.processed_count = s.processed_count ∧
    (process_news s raw now dt).1.categories_count = s.categories_count ∧
    (process_news s raw now dt).1.processing_times = s.processing_times ∧
    ingest_step s buffer broadcast_log raw now dt =
      ({ s with rejected_count := s.rejected_count + 1 }, buffer, broadcast_log) := by
  have he := process_news_reject_eq s raw now dt h
  refine ⟨?_, ?_, ?_, ?_, ?_, ?_⟩ <;> simp [he, ingest_step]

/-- Witness for `rejected_item_no_side_effects`: an item whose required
`title` field is present but empty. -/
theorem rejected_item_no_side_effects_witness :
    (process_news initProcessor [("title", Value.str "")] "" 0).2 = none ∧
    (process_news initProcessor [("title", Value.str "")] "" 0).1.rejected_count =
      initProcessor.rejected_count + 1 ∧
    (process_news initProcessor [("title", Value.str "")] "" 0).1.processed_count =
      initProcessor.processed_count ∧
    (process_news initProcessor [("title", Value.str "")] "" 0).1.categories_count =
      initProcessor.categories_count ∧
    (process_news initProcessor [("title", Value.str "")] "" 0).1.processing_times =
      initProcessor.processing_times ∧
    ingest_step initProcessor [] [] [("title", Value.str "")] "" 0 =
      ({ initProcessor with rejected_count := initProcessor.rejected_count + 1 }, [], []) :=
  rejected_item_no_side_effects initProcessor [] [] [("title", Value.str "")] "" 0
    (Or.inl (by decide))

/-- C5: over any run of `process_news` from a fresh processor, the
`processing_id` values stamped on the accepted items are exactly
1, 2, 3, … in acceptance order (strictly increasing and gap-free); each
success stamps the processing timestamp and appends the measured
duration to the bounded rolling window (capacity 100, oldest evicted
when full). -/
theorem sequence_ids_gap_free (inputs : List RawInput) (s : ProcessorState)
    (item : Item) (now : String) (dt : ℚ) (s' : ProcessorState) (p : Item)
    (h : process_news s item now dt = (s', some p)) :
    (runProcessor initProcessor inputs).2.map (fun q => dictGet q "processing_id") =
      (List.range' 1 (runProcessor initProcessor inputs).2.length).map
        (fun n : ℕ => some (Value.num n)) ∧
    dictGet p "processing_id" = some (Value.num ((s.processed_count + 1 : ℕ) : ℤ)) ∧
    s'.processed_count = s.processed_count + 1 ∧
    dictGet p "processed_at" = some (Value.str now) ∧
    s'.processing_times = dequeAppend 100 s.processing_times dt := by
  obtain ⟨hs, -⟩ := process_news_success_eq s item now dt s' p h
  obtain ⟨hid, hat⟩ := stamped_fields s item now dt s' p h
  refine ⟨?_, hid, ?_, hat, ?_⟩
  · have := runProcessor_ids inputs initProcessor
    simpa [initProcessor] using this
  · rw [hs]
  · rw [hs]

/-- Witness for `sequence_ids_gap_free`: one well-formed item accepted
from the fresh processor. -/
theorem sequence_ids_gap_free_witness :
    (runProcessor initProcessor
        [⟨[("title", Value.str "t"), ("source", Value.str "s"),
           ("category", Value.str "AI"), ("company", Value.str "X")], "n", 0⟩]).2.map
        (fun q => dictGet q "processing_id") =
      (List.range' 1 (runProcessor initProcessor
        [⟨[("title", Value.str "t"), ("source", Value.str "s"),
           ("category", Value.str "AI"), ("company", Value.str "X")], "n", 0⟩]).2.length).map
        (fun n : ℕ => some (Value.num n)) ∧
    dictGet ([("title", Value.str "t"), ("source", Value.str "s"),
        ("category", Value.str "AI"), ("company", Value.str "X"),
        ("processed_at", Value.str "n"), ("processing_id", Value.num 1)])
      "processing_id" =
      some (Value.num ((initProcessor.processed_count + 1 : ℕ) : ℤ)) ∧
    (⟨1, [(Value.str "AI", 1)], [0], 0⟩ : ProcessorState).processed_count =
      initProcessor.processed_count + 1 ∧
    dictGet ([("title", Value.str "t"), ("source", Value.str "s"),
        ("category", Value.str "AI"), ("company", Value.str "X"),
        ("processed_at", Value.str "n"), ("processing_id", Value.num 1)])
      "processed_at" = some (Value.str "n") ∧
    (⟨1, [(Value.str "AI", 1)], [0], 0⟩ : ProcessorState).processing_times =
      dequeAppend 100 initProcessor.processing_times 0 :=
  sequence_ids_gap_free
    [⟨[("title", Value.str "t"), ("source", Value.str "s"),
       ("category", Value.str "AI"), ("company", Value.str "X")], "n", 0⟩]
    initProcessor
    [("title", Value.str "t"), ("source", Value.str "s"),
     ("category", Value.str "AI"), ("company", Value.str "X")] "n" 0
    ⟨1, [(Value.str "AI", 1)], [0], 0⟩
    [("title", Value.str "t"), ("source", Value.str "s"),
     ("category", Value.str "AI"), ("company", Value.str "X"),
     ("processed_at", Value.str "n"), ("processing_id", Value.num 1)]
    (by decide)

/-- C10: every accepted item is returned as the input record with
exactly the two stamped fields `processed_at` and `processing_id` added
or overwritten; every other field keeps its original value and no field
is removed. -/
theorem accepted_item_frame (s : ProcessorState) (item : Item) (now : String) (dt : ℚ)
    (s' : ProcessorState) (p : Item) (h : process_news s item now dt = (s', some p)) :
    p = dictSet (dictSet item "processed_at" (Value.str now)) "processing_id"
          (Value.num ((s.processed_count + 1 : ℕ) : ℤ)) ∧
    dictGet p "processed_at" = some (Value.str now) ∧
    dictGet p "processing_id" = some (Value.num ((s.processed_count + 1 : ℕ) : ℤ)) ∧
    (∀ k, k ≠ "processed_at" → k ≠ "processing_id" → dictGet p k = dictGet item k) ∧
    (∀ k, (dictGet item k).isSome → (dictGet p k).isSome) := by
  obtain ⟨-, hp⟩ := process_news_success_eq s item now dt s' p h
  obtain ⟨hid, hat⟩ := stamped_fields s item now dt s' p h
  refine ⟨hp, hat, hid, ?_, ?_⟩
  · intro k h1 h2
    rw [hp, dictGet_dictSet_ne _ _ _ _ h2, dictGet_dictSet_ne _ _ _ _ h1]
  · intro k hk
    by_cases h1 : k = "processed_at"
    · subst h1; rw [hat]; rfl
    · by_cases h2 : k = "processing_id"
      · subst h2; rw [hid]; rfl
      · rw [hp, dictGet_dictSet_ne _ _ _ _ h2, dictGet_dictSet_ne _ _ _ _ h1]
        exact hk

/-- Witness for `accepted_item_frame`: a well-formed concrete item. -/
theorem accepted_item_frame_witness :
    ([("title", Value.str "t"), ("source", Value.str "s"),
      ("category", Value.str "AI"), ("company", Value.str "X"),
      ("processed_at", Value.str "n"), ("processing_id", Value.num 1)] : Item) =
      dictSet (dictSet [("title", Value.str "t"), ("source", Value.str "s"),
          ("category", Value.str "AI"), ("company", Value.str "X")]
        "processed_at" (Value.str "n")) "processing_id"
        (Value.num ((initProcessor.processed_count + 1 : ℕ) : ℤ)) ∧
    dictGet [("title", Value.str "t"), ("source", Value.str "s"),
        ("category", Value.str "AI"), ("company", Value.str "X"),
        ("processed_at", Value.str "n"), ("processing_id", Value.num 1)] "processed_at" =
      some (Value.str "n") ∧
    dictGet [("title", Value.str "t"), ("source", Value.str "s"),
        ("category", Value.str "AI"), ("company", Value.str "X"),
        ("processed_at", Value.str "n"), ("processing_id", Value.num 1)] "processing_id" =
      some (Value.num ((initProcessor.processed_count + 1 : ℕ) : ℤ)) ∧
    (∀ k, k ≠ "processed_at" → k ≠ "processing_id" →
      dictGet [("title", Value.str "t"), ("source", Value.str "s"),
          ("category", Value.str "AI"), ("company", Value.str "X"),
          ("processed_at", Value.str "n"), ("processing_id", Value.num 1)] k =
        dictGet [("title", Value.str "t"), ("source", Value.str "s"),
          ("category", Value.str "AI"), ("company", Value.str "X")] k) ∧
    (∀ k, (dictGet [("title", Value.str "t"), ("source", Value.str "s"),
        ("category", Value.str "AI"), ("company", Value.str "X")] k).isSome →
      (dictGet [("title", Value.str "t"), ("source", Value.str "s"),
          ("category", Value.str "AI"), ("company", Value.str "X"),
          ("processed_at", Value.str "n"), ("processing_id", Value.num 1)] k).isSome) :=
  accepted_item_frame initProcessor
    [("title", Value.str "t"), ("source", Value.str "s"),
     ("category", Value.str "AI"), ("company", Value.str "X")] "n" 0
    ⟨1, [(Value.str "AI", 1)], [0], 0⟩
    [("title", Value.str "t"), ("source", Value.str "s"),
     ("category", Value.str "AI"), ("company", Value.str "X"),
     ("processed_at", Value.str "n"), ("processing_id", Value.num 1)]
    (by decide)

/-! ### Claim theorems: history buffer -/

/-- C6: the history buffer built by folding appends into the
`deque(maxlen=1000)` never exceeds its capacity, holds exactly the last
`N` appended items in insertion order, and `snapshot k` (the route's
`[-k:]` slice, meaningful for `k ≥ 1`) is a suffix of the buffer of
length `min k size` — the most recent items in acceptance order. With
capacity 3, appending items with ids 1,2,3,4 and asking the route's
10-item snapshot yields the items 2,3,4. -/
theorem history_buffer_bounded (items : List Item) (k : ℕ) (_hk : 1 ≤ k) :
    (items.foldl (dequeAppend news_buffer_capacity) []).length ≤ news_buffer_capacity ∧
    items.foldl (dequeAppend news_buffer_capacity) [] =
      items.drop (items.length - news_buffer_capacity) ∧
    snapshot k (items.foldl (dequeAppend news_buffer_capacity) []) <:+
      items.foldl (dequeAppend news_buffer_capacity) [] ∧
    (snapshot k (items.foldl (dequeAppend news_buffer_capacity) [])).length =
      min k (items.foldl (dequeAppend news_buffer_capacity) []).length ∧
    get_latest_news ([[("id", Value.num 1)], [("id", Value.num 2)],
        [("id", Value.num 3)], [("id", Value.num 4)]].foldl (dequeAppend 3) []) =
      [[("id", Value.num 2)], [("id", Value.num 3)], [("id", Value.num 4)]] := by
  have hcap : 1 ≤ news_buffer_capacity := by norm_num [news_buffer_capacity]
  have hfold := foldl_dequeAppend news_buffer_capacity hcap items
  refine ⟨?_, ?_, ?_, ?_, ?_⟩
  · rw [hfold, length_rtakeN]
    exact min_le_left _ _
  · rw [hfold]
    rfl
  · exact rtakeN_suffix _ _
  · rw [show snapshot k (items.foldl (dequeAppend news_buffer_capacity) []) =
        rtakeN k (items.foldl (dequeAppend news_buffer_capacity) []) from rfl, length_rtakeN]
  · decide

/-- Witness for `history_buffer_bounded` at a one-item fold and `k = 2`. -/
theorem history_buffer_bounded_witness :
    ([[("id", Value.num 1)]].foldl (dequeAppend news_buffer_capacity) []).length ≤
      news_buffer_capacity ∧
    [[("id", Value.num 1)]].foldl (dequeAppend news_buffer_capacity) [] =
      [[("id", Value.num 1)]].drop ([[("id", Value.num 1)]].length - news_buffer_capacity) ∧
    snapshot 2 ([[("id", Value.num 1)]].foldl (dequeAppend news_buffer_capacity) []) <:+
      [[("id", Value.num 1)]].foldl (dequeAppend news_buffer_capacity) [] ∧
    (snapshot 2 ([[("id", Value.num 1)]].foldl (dequeAppend news_buffer_capacity) [])).length =
      min 2 ([[("id", Value.num 1)]].foldl (dequeAppend news_buffer_capacity) []).length ∧
    get_latest_news ([[("id", Value.num 1)], [("id", Value.num 2)],
        [("id", Value.num 3)], [("id", Value.num 4)]].foldl (dequeAppend 3) []) =
      [[("id", Value.num 2)], [("id", Value.num 3)], [("id", Value.num 4)]] :=
  history_buffer_bounded [[("id", Value.num 1)]] 2 (by decide)

/-! ### Claim theorems: websocket manager -/

/-- C7 counterexample: with registry `[1, 2, 3]` where subscriber `2`
always fails delivery, `broadcast_news` records exactly one failed
attempt for it, yet the failing subscriber is still present in the
registry when the broadcast returns — the source never unregisters on a
broadcast delivery failure, contradicting the claim. -/
theorem broadcast_failed_subscriber_not_evicted :
    2 ∈ ((broadcast_news ⟨[1, 2, 3], 0, 0⟩ initBP (fun h => h == 2) 0).1).active_connections ∧
    ((broadcast_news ⟨[1, 2, 3], 0, 0⟩ initBP (fun h => h == 2) 0).1).active_connections =
      [1, 2, 3] ∧
    (broadcast_news ⟨[1, 2, 3], 0, 0⟩ initBP (fun h => h == 2) 0).2.1 =
      [false, true, false] := by decide

/-- C7 (amended): `broadcast_news` makes one independent delivery
attempt per registered subscriber — delivering to every non-failing one
regardless of which others fail — counts each failure and success into
the cumulative counters, and records the broadcast duration into the
controller's rolling window; but it does not unregister failing
subscribers: the registry is unchanged when the broadcast returns. -/
theorem broadcast_news_isolation (m : WSManager) (bp : BPState) (fails : ℕ → Bool) (dt : ℚ) :
    (broadcast_news m bp fails dt).2.1 = m.active_connections.map fails ∧
    ((broadcast_news m bp fails dt).1).active_connections = m.active_connections ∧
    ((broadcast_news m bp fails dt).1).total_errors =
      m.total_errors + m.active_connections.countP fails ∧
    ((broadcast_news m bp fails dt).1).total_sent =
      m.total_sent + (m.active_connections.length - m.active_connections.countP fails) ∧
    (broadcast_news m bp fails dt).2.2 =
      (if m.active_connections.isEmpty then bp
       else { bp with processing_times := dequeAppend 100 bp.processing_times dt }) := by
  unfold broadcast_news
  by_cases hE : m.active_connections.isEmpty
  · have h0 : m.active_connections = [] := List.isEmpty_iff.mp hE
    simp [hE, h0]
  · have hcomp : ((fun r : Bool => r) ∘ fails) = fails := rfl
    simp [hE, List.countP_map, hcomp]

/-- C8 counterexample: registering the same subscriber handle twice from
the empty registry leaves two entries for it, not one — `connect`
appends unconditionally, contradicting the idempotence claim. -/
theorem connect_twice_two_entries :
    ((connect (connect initWS 7) 7).active_connections.count 7) = 2 ∧
    (connect (connect initWS 7) 7).active_connections = [7, 7] := by decide

/-- C8 (amended): registration is not idempotent — `connect`
unconditionally appends the handle to the registry, so registering an
already-registered handle adds a second entry: two registrations of the
same handle leave exactly two more entries for it than before. -/
theorem connect_appends_duplicate (m : WSManager) (ws : ℕ) :
    (connect m ws).active_connections = m.active_connections ++ [ws] ∧
    ((connect (connect m ws) ws).active_connections.count ws) =
      m.active_connections.count ws + 2 := by
  refine ⟨rfl, ?_⟩
  simp [connect, List.count_append]

end RTNews
